import Mathlib

/-!
Verification development for the FPLO band-structure visualizer core
(src/fplo_visualizer.py, src/fplo_fermi_visualizer.py, src/fplo_gui_main.py).

Modelling conventions:
* Python floats are modelled as rationals (all constants in the source are
  decimal literals, and every arithmetic fact proved here is exact in both
  models at the inputs considered).
* numpy arrays are modelled as lists; the K×B band_energies matrix is a list
  of K rows of B entries.
* Fallible operations (out-of-range indexing, division by zero) are modelled
  with Option / Except.
-/

namespace FPLO

/-- Minimum of a list of rationals, modelling np.min.  np.min raises on an
empty array; this model is only used on nonempty lists (the value at [] is an
irrelevant default). -/
def npMin : List ℚ → ℚ
  | [] => 0
  | x :: xs => xs.foldl min x

/-- Maximum of a list of rationals, modelling np.max on nonempty arrays. -/
def npMax : List ℚ → ℚ
  | [] => 0
  | x :: xs => xs.foldl max x

/-- Column b of the K×B band_energies matrix, i.e. self.band_energies[:, b]
in the source (rows of consistent width B; out-of-range defaults to 0). -/
def column (be : List (List ℚ)) (b : Nat) : List ℚ :=
  be.map (fun row => row.getD b 0)

/-! ### Material classifier (FPLOFermiVisualizer._classify_material_type) -/

/-- Bands whose per-k energy range straddles the Fermi level, mirroring the
loop in `_classify_material_type` that collects `fermi_crossing_bands`:
`np.min(band_energies) <= self.fermi_energy <= np.max(band_energies)`. -/
def fermi_crossing_bands (be : List (List ℚ)) (num_bands : Nat) (fermi : ℚ) : List Nat :=
  (List.range num_bands).filter (fun b =>
    decide (npMin (column be b) ≤ fermi ∧ fermi ≤ npMax (column be b)))

/-- FPLOFermiVisualizer._classify_material_type: metal if any band crosses the
Fermi level; otherwise classify by the band gap with the fixed thresholds
0.1 eV and 1.5 eV. -/
def classify_material_type (be : List (List ℚ)) (num_bands : Nat) (fermi : ℚ)
    (band_gap : ℚ) : String :=
  if (fermi_crossing_bands be num_bands fermi).length > 0 then "metal"
  else if band_gap < 1/10 then "metal"
  else if band_gap < 3/2 then "semiconductor"
  else "insulator"

/-- Valence-band maximum from FPLOFermiVisualizer._analyze_fermi_region:
`np.max` of the flattened energies that are `<= 0.0`, defaulting to 0. -/
def vbmOf (be : List (List ℚ)) : ℚ :=
  let valence := be.flatten.filter (fun e => decide (e ≤ 0))
  if valence.isEmpty then 0 else npMax valence

/-- Conduction-band minimum from FPLOFermiVisualizer._analyze_fermi_region:
`np.min` of the flattened energies that are `> 0.0`, defaulting to 0. -/
def cbmOf (be : List (List ℚ)) : ℚ :=
  let conduction := be.flatten.filter (fun e => decide (0 < e))
  if conduction.isEmpty then 0 else npMin conduction

/-! ### Fermi window (FPLOFermiVisualizer.set_fermi_window and the
user-override branch of _find_optimal_energy_window) -/

/-- Window computed by FPLOFermiVisualizer.set_fermi_window:
`(fermi - size/2, fermi + size/2)`. -/
def set_fermi_window_pair (fermi window_size : ℚ) : ℚ × ℚ :=
  (fermi - window_size / 2, fermi + window_size / 2)

/-- User-override branch of FPLOFermiVisualizer._find_optimal_energy_window:
when `self.user_fermi_window` is set the window is returned directly with no
scoring: `(fermi - user/2, fermi + user/2)`. -/
def user_window_branch (fermi user_fermi_window : ℚ) : ℚ × ℚ :=
  (fermi - user_fermi_window / 2, fermi + user_fermi_window / 2)

/-! ### Band/weight data loader (read_and_parse_data, identical in
FPLOVisualizer and FPLOFermiVisualizer) -/

/-- One parsed numeric row of the file body: `(k, energy, weights...)`. -/
structure RawRow where
  k : ℚ
  energy : ℚ
  weights : List ℚ

/-- Band-count inference: count of consecutive rows from the start whose
k-coordinate satisfies `abs(row[0]) < 1e-6`; the loop breaks at the first row
that does not. -/
def infer_num_bands : List RawRow → Nat
  | [] => 0
  | r :: rs => if |r.k| < 1/1000000 then infer_num_bands rs + 1 else 0

/-- Sampling stride: `num_kpoints // max_kpoints` when `max_kpoints` is truthy
(not None and nonzero) and `num_kpoints > max_kpoints`, else 1. -/
def k_sample_step (num_kpoints : Nat) (max_kpoints : Option Nat) : Nat :=
  match max_kpoints with
  | some m => if m ≠ 0 ∧ num_kpoints > m then num_kpoints / m else 1
  | none => 1

/-- Python `range(start, stop, step)` for positive step. -/
def pyRange (start stop step : Nat) : List Nat :=
  List.range' start ((stop - start + step - 1) / step) step

/-- Reshaped output of the loader; `num_kpoints` is set to `len(k_points)`
as in the source. -/
structure BandTensor where
  k_points : List ℚ
  band_energies : List (List ℚ)
  band_weights : List (List (List ℚ))
  num_bands : Nat
  num_kpoints : Nat

/-- FPLOVisualizer.read_and_parse_data / FPLOFermiVisualizer.read_and_parse_data
(data reorganization part).  `num_kpoints = total_points // num_bands` raises
ZeroDivisionError in Python when the inferred band count is 0; that abort is
modelled as an Except.error, leaving no tensor assigned.  Each sampled k-index
gathers the rows `k_idx * num_bands + band_idx` that exist (`data_idx <
len(all_data)`); the k-coordinate is recorded from the first band's row. -/
def read_and_parse_data (all_data : List RawRow) (max_kpoints : Option Nat) :
    Except String BandTensor :=
  let num_bands := infer_num_bands all_data
  if num_bands = 0 then Except.error "ZeroDivisionError"
  else
    let total_points := all_data.length
    let num_kpoints := total_points / num_bands
    let step := k_sample_step num_kpoints max_kpoints
    let sampled := pyRange 0 num_kpoints step
    let k_points := sampled.filterMap (fun k_idx =>
      (all_data[k_idx * num_bands]?).map RawRow.k)
    Except.ok {
      k_points := k_points
      band_energies := sampled.map (fun k_idx =>
        (List.range num_bands).filterMap (fun b =>
          (all_data[k_idx * num_bands + b]?).map RawRow.energy))
      band_weights := sampled.map (fun k_idx =>
        (List.range num_bands).filterMap (fun b =>
          (all_data[k_idx * num_bands + b]?).map RawRow.weights))
      num_bands := num_bands
      num_kpoints := k_points.length }

/-! ### Important bands (FPLOFermiVisualizer._identify_important_bands) -/

/-- FPLOFermiVisualizer._identify_important_bands: band b is kept when some
sampled energy lies inside the window (`np.any((E >= lower) & (E <= upper))`)
and the band crosses the Fermi level or its minimum distance to the Fermi
level is at most 3 eV. -/
def identify_important_bands (be : List (List ℚ)) (num_bands : ℕ)
    (energy_window : ℚ × ℚ) (fermi : ℚ) : List ℕ :=
  (List.range num_bands).filter (fun b =>
    let col := column be b
    let in_window := col.any (fun e =>
      decide (energy_window.1 ≤ e ∧ e ≤ energy_window.2))
    let crosses_fermi := decide (npMin col ≤ fermi ∧ fermi ≤ npMax col)
    let close_to_fermi := decide (npMin (col.map (fun e => |e - fermi|)) ≤ 3)
    in_window && (crosses_fermi || close_to_fermi))

/-- State of the Fermi-focused visualizer relevant to window changes. -/
structure FermiVizState where
  band_energies : List (List ℚ)
  num_bands : ℕ
  fermi_energy : ℚ
  energy_window : ℚ × ℚ
  user_fermi_window : Option ℚ
  important_bands : List ℕ

/-- FPLOFermiVisualizer.set_fermi_window: store the user window size, replace
the energy window by (fermi - size/2, fermi + size/2), re-identify the
important bands, and return the new window. -/
def set_fermi_window (st : FermiVizState) (window_size : ℚ) :
    FermiVizState × (ℚ × ℚ) :=
  let w := (st.fermi_energy - window_size / 2, st.fermi_energy + window_size / 2)
  let st2 : FermiVizState := { st with
    user_fermi_window := some window_size
    energy_window := w
    important_bands :=
      identify_important_bands st.band_energies st.num_bands w st.fermi_energy }
  (st2, w)

/-- Modelled from the spec: ImportantBandSet membership as the spec words it,
with "band's energy range intersects EnergyWindow" read as interval
intersection of [min, max] with the window; kept for comparison with the
implementation's per-sample membership test. -/
def spec_important_band (be : List (List ℚ)) (energy_window : ℚ × ℚ)
    (fermi : ℚ) (b : ℕ) : Prop :=
  (npMin (column be b) ≤ energy_window.2 ∧ energy_window.1 ≤ npMax (column be b))
  ∧ ((npMin (column be b) ≤ fermi ∧ fermi ≤ npMax (column be b))
    ∨ npMin ((column be b).map (fun e => |e - fermi|)) ≤ 3)

/-! ### Orbital-weight density (FPLOFermiVisualizer._calculate_orbital_weight_density) -/

/-- Sum of the significant per-orbital weights of one (k, band) pair:
`np.sum(band_weights[band_weights > 0.005])`. -/
def significant_weight_sum (w : List ℚ) : ℚ :=
  (w.filter (fun x => decide (x > 1/200))).sum

/-- One inner-loop step of _calculate_orbital_weight_density: when the band
energy is within ±energy_step of the bin center and the weight indices are in
range (the isinstance guard of the source is always true), add the pair's
significant weight to total_weight and bump count once. -/
def weight_density_step (be : List (List ℚ)) (wts : List (List (List ℚ)))
    (energy energy_step : ℚ) (k_idx : ℕ) (acc2 : ℚ × ℕ) (band_idx : ℕ) : ℚ × ℕ :=
  if |(be.getD k_idx []).getD band_idx 0 - energy| ≤ energy_step then
    if k_idx < wts.length ∧ band_idx < (wts.getD k_idx []).length then
      (acc2.1 + significant_weight_sum ((wts.getD k_idx []).getD band_idx []),
        acc2.2 + 1)
    else acc2
  else acc2

/-- Accumulation loop of _calculate_orbital_weight_density for one bin
center: iterate over every k index and band index. -/
def weight_density_acc (be : List (List ℚ)) (wts : List (List (List ℚ)))
    (num_kpoints num_bands : ℕ) (energy energy_step : ℚ) : ℚ × ℕ :=
  (List.range num_kpoints).foldl (fun acc k_idx =>
    (List.range num_bands).foldl (weight_density_step be wts energy energy_step k_idx)
      acc) (0, 0)

/-- Density at one bin center: `total_weight / max(count, 1)`. -/
def orbital_weight_density_at (be : List (List ℚ)) (wts : List (List (List ℚ)))
    (num_kpoints num_bands : ℕ) (energy energy_step : ℚ) : ℚ :=
  let acc := weight_density_acc be wts num_kpoints num_bands energy energy_step
  acc.1 / ((max acc.2 1 : ℕ) : ℚ)

/-- All (k, band) index pairs in loop order. -/
def indexPairs (K B : ℕ) : List (ℕ × ℕ) :=
  (List.range K).flatMap (fun k => (List.range B).map (fun b => (k, b)))

/-- Qualifying pairs for a bin center: band energy within ±energy_step. -/
def qualifying_pairs (be : List (List ℚ)) (K B : ℕ) (E estep : ℚ) : List (ℕ × ℕ) :=
  (indexPairs K B).filter
    (fun p => decide (|(be.getD p.1 []).getD p.2 0 - E| ≤ estep))

/-! ### Adaptive boundary selection (FPLOFermiVisualizer._adaptive_boundary_selection,
_find_smart_upper_boundary, _find_smart_lower_boundary) -/

/-- Python int() truncation toward zero on a rational. -/
def pyInt (q : ℚ) : ℤ := if 0 ≤ q then ⌊q⌋ else -⌊-q⌋

/-- Python/numpy indexing with a possibly negative index: a negative index
wraps once from the end; an index outside [-len, len) raises IndexError,
modelled as none. -/
def pyGetQ (l : List ℚ) (i : ℤ) : Option ℚ :=
  if 0 ≤ i then l[i.toNat]?
  else if -i ≤ (l.length : ℤ) then l[l.length - (-i).toNat]? else none

/-- Python slice l[a:b]: negative endpoints wrap once from the end and the
result is clamped to the list. -/
def pySlice (l : List ℚ) (a b : ℤ) : List ℚ :=
  let n := (l.length : ℤ)
  let a2 := if a < 0 then max 0 (n + a) else a
  let b2 := if b < 0 then max 0 (n + b) else b
  (l.take b2.toNat).drop a2.toNat

/-- np.mean; the mean of an empty slice is NaN, modelled as none. -/
def npMeanOpt (l : List ℚ) : Option ℚ :=
  match l with
  | [] => none
  | _ => some (l.sum / (l.length : ℚ))

/-- Comparison local_score < min_score of the source, where min_score starts
at float('inf') (none on the right) and local_score may be NaN (none on the
left; any comparison with NaN is false). -/
def lt_nan_inf : Option ℚ → Option ℚ → Bool
  | none, _ => false
  | some _, none => true
  | some ls, some m => decide (ls < m)

/-- Python range(a, b) over integers. -/
def pyRangeZ (a b : ℤ) : List ℤ :=
  (List.range (b - a).toNat).map (fun j => a + (j : ℤ))

/-- Python range(a, b, -1) over integers. -/
def pyRangeZDown (a b : ℤ) : List ℤ :=
  (List.range (a - b).toNat).map (fun j => a - (j : ℤ))

/-- Helper loop of np.argmin(np.abs(grid - target)). -/
def argmin_abs_aux (target : ℚ) : List ℚ → ℕ → ℕ → ℚ → ℕ
  | [], _, best, _ => best
  | x :: xs, i, best, bv =>
    if |x - target| < bv then argmin_abs_aux target xs (i + 1) i |x - target|
    else argmin_abs_aux target xs (i + 1) best bv

/-- np.argmin(np.abs(grid - target)): first index of minimal distance
(np.argmin raises on an empty array; 0 at [] is an unused default). -/
def argmin_abs (grid : List ℚ) (target : ℚ) : ℕ :=
  match grid with
  | [] => 0
  | x :: xs => argmin_abs_aux target xs 1 0 |x - target|

/-- Indices examined by the upper-boundary loop of
_find_smart_upper_boundary:
range(max(start_idx, fermi_idx + base_idx_half // 2), end_idx) with
start_idx from the CBM for gapped non-metals and fermi + 1 eV for metals, and
end_idx = min(len(grid) - 1, fermi_idx + search_idx_half). -/
def upper_search_indices (grid : List ℚ) (fermi_idx base_idx_half search_idx_half : ℤ)
    (material_type : String) (cbm band_gap : ℚ) : List ℤ :=
  let estep := grid.getD 1 0 - grid.getD 0 0
  let start_idx : ℤ :=
    if material_type ≠ "metal" ∧ band_gap > 1/10 then
      (argmin_abs grid (cbm + 3/10) : ℤ)
    else fermi_idx + pyInt (1 / estep)
  let end_idx : ℤ := min ((grid.length : ℤ) - 1) (fermi_idx + search_idx_half)
  pyRangeZ (max start_idx (fermi_idx + Int.fdiv base_idx_half 2)) end_idx

/-- One step of the upper-boundary loop: compute the local average score over
the ±0.5 eV window and track the lowest-scored bin strictly beyond
fermi + 2 eV. -/
def upper_scan_step (grid scores : List ℚ) (fermi : ℚ) (window_half : ℤ)
    (st : ℤ × Option ℚ) (idx : ℤ) : ℤ × Option ℚ :=
  let ls := npMeanOpt (pySlice scores (max 0 (idx - window_half))
    (min (scores.length : ℤ) (idx + window_half)))
  if lt_nan_inf ls st.2 && decide ((pyGetQ grid idx).getD 0 > fermi + 2)
  then (idx, ls) else st

/-- FPLOFermiVisualizer._find_smart_upper_boundary: scan the candidate bins,
tracking the lowest local average score among bins strictly beyond
fermi + 2 eV; the boundary is the winning bin's energy clamped to
[fermi + 3, fermi + 12].  The final grid lookup uses the initialized default
index fermi_idx + base_idx_half when no bin qualified, which can be out of
range (IndexError, modelled none). -/
def find_smart_upper_boundary (grid scores : List ℚ) (fermi : ℚ)
    (fermi_idx base_idx_half search_idx_half : ℤ)
    (material_type : String) (cbm band_gap : ℚ) : Option ℚ :=
  let estep := grid.getD 1 0 - grid.getD 0 0
  let window_half := pyInt (1/2 / estep)
  let st := (upper_search_indices grid fermi_idx base_idx_half search_idx_half
      material_type cbm band_gap).foldl
    (upper_scan_step grid scores fermi window_half)
    (fermi_idx + base_idx_half, none)
  (pyGetQ grid st.1).map (fun u => min (max u (fermi + 3)) (fermi + 12))

/-- Indices examined by the lower-boundary loop of
_find_smart_lower_boundary: range(min(start_idx, fermi_idx -
base_idx_half // 2), end_idx, -1). -/
def lower_search_indices (grid : List ℚ) (fermi_idx base_idx_half search_idx_half : ℤ)
    (material_type : String) (vbm band_gap : ℚ) : List ℤ :=
  let estep := grid.getD 1 0 - grid.getD 0 0
  let start_idx : ℤ :=
    if material_type ≠ "metal" ∧ band_gap > 1/10 then
      (argmin_abs grid (vbm - 3/10) : ℤ)
    else fermi_idx - pyInt (1 / estep)
  let end_idx : ℤ := max 0 (fermi_idx - search_idx_half)
  pyRangeZDown (min start_idx (fermi_idx - Int.fdiv base_idx_half 2)) end_idx

/-- One step of the lower-boundary loop: track the lowest-scored bin strictly
below fermi - 2 eV. -/
def lower_scan_step (grid scores : List ℚ) (fermi : ℚ) (window_half : ℤ)
    (st : ℤ × Option ℚ) (idx : ℤ) : ℤ × Option ℚ :=
  let ls := npMeanOpt (pySlice scores (max 0 (idx - window_half))
    (min (scores.length : ℤ) (idx + window_half)))
  if lt_nan_inf ls st.2 && decide ((pyGetQ grid idx).getD 0 < fermi - 2)
  then (idx, ls) else st

/-- FPLOFermiVisualizer._find_smart_lower_boundary, the mirror image of the
upper search: lowest-scored bin strictly below fermi - 2 eV, clamped to
[fermi - 12, fermi - 3]. -/
def find_smart_lower_boundary (grid scores : List ℚ) (fermi : ℚ)
    (fermi_idx base_idx_half search_idx_half : ℤ)
    (material_type : String) (vbm band_gap : ℚ) : Option ℚ :=
  let estep := grid.getD 1 0 - grid.getD 0 0
  let window_half := pyInt (1/2 / estep)
  let st := (lower_search_indices grid fermi_idx base_idx_half search_idx_half
      material_type vbm band_gap).foldl
    (lower_scan_step grid scores fermi window_half)
    (fermi_idx - base_idx_half, none)
  (pyGetQ grid st.1).map (fun l => max (min l (fermi - 3)) (fermi - 12))

/-- Final window adjustment of _adaptive_boundary_selection: windows narrower
than min_window = 4 eV are recentered and expanded to exactly 4 eV. -/
def combine_boundaries (lower_boundary upper_boundary : ℚ) : ℚ × ℚ :=
  let window_size := upper_boundary - lower_boundary
  if window_size < 4 then
    let center := (upper_boundary + lower_boundary) / 2
    (center - 4 / 2, center + 4 / 2)
  else (lower_boundary, upper_boundary)

/-- FPLOFermiVisualizer._adaptive_boundary_selection: material-dependent
half-widths (metal 3/6, semiconductor 4/8, insulator 5/10 eV), then the upper
search followed by the lower search (an exception in either aborts the whole
selection), then the minimum-window adjustment. -/
def adaptive_boundary_selection (grid scores : List ℚ) (material_type : String)
    (fermi vbm cbm band_gap : ℚ) : Option (ℚ × ℚ) :=
  let fermi_idx : ℤ := (argmin_abs grid fermi : ℤ)
  let bs : ℚ × ℚ :=
    if material_type = "metal" then (3, 6)
    else if material_type = "semiconductor" then (4, 8)
    else (5, 10)
  let estep := grid.getD 1 0 - grid.getD 0 0
  let base_idx_half := pyInt (bs.1 / estep)
  let search_idx_half := pyInt (bs.2 / estep)
  (find_smart_upper_boundary grid scores fermi fermi_idx base_idx_half
      search_idx_half material_type cbm band_gap).bind (fun ub =>
    (find_smart_lower_boundary grid scores fermi fermi_idx base_idx_half
        search_idx_half material_type vbm band_gap).map (fun lb =>
      combine_boundaries lb ub))

/-! ### Orbital label parser (FPLOVisualizer._parse_orbital_labels) -/

/-- Character class [A-Z]. -/
def isUpperAZ (c : Char) : Bool := 'A' ≤ c && c ≤ 'Z'

/-- Character class [a-z]. -/
def isLowerAZ (c : Char) : Bool := 'a' ≤ c && c ≤ 'z'

/-- Character class \d. -/
def isDigitC (c : Char) : Bool := '0' ≤ c && c ≤ '9'

/-- Character class [spdf]. -/
def isSPDF (c : Char) : Bool := c = 's' || c = 'p' || c = 'd' || c = 'f'

/-- Maximal digit run at the front of a token (greedy \d*). -/
def takeDigits : List Char → List Char × List Char
  | [] => ([], [])
  | c :: cs =>
    if isDigitC c then
      let p := takeDigits cs
      (c :: p.1, p.2)
    else ([], c :: cs)

/-- Regex fragment `([A-Z][a-z]?)\(` with its backtracking: an uppercase
letter, optionally a lowercase letter, then an opening parenthesis; returns
the element characters and the remainder after the parenthesis. -/
def matchElemParen : List Char → Option (List Char × List Char)
  | c :: d :: rest =>
    if isUpperAZ c then
      if d = '(' then some ([c], rest)
      else if isLowerAZ d then
        match rest with
        | e :: rest2 => if e = '(' then some ([c, d], rest2) else none
        | [] => none
      else none
    else none
  | _ => none

/-- Regex fragment `\d+\)` after an opening parenthesis: one or more digits
then a closing parenthesis; returns the remainder. -/
def matchParenDigits (s : List Char) : Option (List Char) :=
  let p := takeDigits s
  if p.1.isEmpty then none
  else
    match p.2 with
    | ')' :: rest2 => some rest2
    | _ => none

/-- compact_pat `^([A-Z][a-z]?)\(\d+\)(\d+)([spdf])`: element, principal
quantum number digits and angular-momentum letter fused in one token. -/
def matchCompact (t : List Char) : Option (List Char × List Char × Char) :=
  match matchElemParen t with
  | none => none
  | some (el, rest) =>
    match matchParenDigits rest with
    | none => none
    | some rest2 =>
      let p := takeDigits rest2
      if p.1.isEmpty then none
      else
        match p.2 with
        | l :: _ => if isSPDF l then some (el, p.1, l) else none
        | [] => none

/-- element regex `^([A-Z][a-z]?)$`: a whole token that is one uppercase
letter optionally followed by one lowercase letter. -/
def matchElementOnly (t : List Char) : Option (List Char) :=
  match t with
  | [c] => if isUpperAZ c then some [c] else none
  | [c, d] => if isUpperAZ c && isLowerAZ d then some [c, d] else none
  | _ => none

/-- split_pat `^\(\d+\)(\d+)([spdf])`: orbital info token following a
standalone element token. -/
def matchSplitOrbital (t : List Char) : Option (List Char × Char) :=
  match t with
  | '(' :: rest =>
    match matchParenDigits rest with
    | none => none
    | some rest2 =>
      let p := takeDigits rest2
      if p.1.isEmpty then none
      else
        match p.2 with
        | l :: _ => if isSPDF l then some (p.1, l) else none
        | [] => none
  | _ => none

/-- Lazy search `.*?([spdf])`: the first [spdf] character of the remainder. -/
def findSPDF : List Char → Option Char
  | [] => none
  | c :: cs => if isSPDF c then some c else findSPDF cs

/-- l_only_split_pat `^\(\d+\).*?([spdf])`: degraded parse of a split-form
orbital token when the principal quantum number cannot be extracted. -/
def matchSplitFallback (t : List Char) : Option Char :=
  match t with
  | '(' :: rest =>
    match matchParenDigits rest with
    | none => none
    | some rest2 => findSPDF rest2
  | _ => none

/-- l_only_compact_pat `^([A-Z][a-z]?)\(\d+\).*?([spdf])`: degraded parse of
a compact-form token. -/
def matchCompactFallback (t : List Char) : Option (List Char × Char) :=
  match matchElemParen t with
  | none => none
  | some (el, rest) =>
    match matchParenDigits rest with
    | none => none
    | some rest2 => (findSPDF rest2).map (fun l => (el, l))

/-- Parser state: orbital_info is an insertion-ordered dict from key to the
list of weight-column indices; elements and orbital_types model the Python
sets as insertion-ordered duplicate-free lists. -/
structure ParserState where
  orbital_info : List (String × List ℕ)
  elements : List String
  orbital_types : List String

/-- orbital_info[key].append(idx), creating the entry when absent. -/
def addToGroupStr (info : List (String × List ℕ)) (key : String) (idx : ℕ) :
    List (String × List ℕ) :=
  match info with
  | [] => [(key, [idx])]
  | (k, v) :: rest =>
    if k = key then (k, v ++ [idx]) :: rest
    else (k, v) :: addToGroupStr rest key idx

/-- set.add for the insertion-ordered set model. -/
def addElem (l : List String) (e : String) : List String :=
  if e ∈ l then l else l ++ [e]

/-- Dict lookup in the insertion-ordered orbital_info. -/
def lookupGroup : List (String × List ℕ) → String → Option (List ℕ)
  | [], _ => none
  | (k, v) :: rest, key => if k = key then some v else lookupGroup rest key

/-- Full-parse state update: record the key with the current weight index and
the element/orbital-type sets (key suffix is the n digits and the l letter). -/
def record_full (st : ParserState) (el n : List Char) (l : Char) (idx : ℕ) :
    ParserState :=
  { orbital_info :=
      addToGroupStr st.orbital_info (String.mk (el ++ '_' :: (n ++ [l]))) idx
    elements := addElem st.elements (String.mk el)
    orbital_types := addElem st.orbital_types (String.mk (n ++ [l])) }

/-- Degraded-parse state update: the key falls back to element_l. -/
def record_fallback (st : ParserState) (el : List Char) (l : Char) (idx : ℕ) :
    ParserState :=
  { orbital_info := addToGroupStr st.orbital_info (String.mk (el ++ ['_', l])) idx
    elements := addElem st.elements (String.mk el)
    orbital_types := addElem st.orbital_types (String.mk [l]) }

/-- FPLOVisualizer._parse_orbital_labels main loop (after the two leading
k/energy label columns have been skipped).  Case A: a compact token consumes
one weight index and one token.  Case B: a standalone element token followed
by an orbital token consumes two tokens and one weight index, with an n-less
fallback.  Case C: the compact-form fallback on the current token.
Unrecognized tokens are skipped without consuming a weight index. -/
def parse_orbital_tokens : List (List Char) → ℕ → ParserState → ParserState
  | [], _, st => st
  | [t], idx, st =>
    match matchCompact t with
    | some (el, n, l) => record_full st el n l idx
    | none =>
      match matchCompactFallback t with
      | some (el2, l) => record_fallback st el2 l idx
      | none => st
  | t :: t2 :: rest, idx, st =>
    match matchCompact t with
    | some (el, n, l) =>
      parse_orbital_tokens (t2 :: rest) (idx + 1) (record_full st el n l idx)
    | none =>
      match matchElementOnly t with
      | some el =>
        match matchSplitOrbital t2 with
        | some (n, l) =>
          parse_orbital_tokens rest (idx + 1) (record_full st el n l idx)
        | none =>
          match matchSplitFallback t2 with
          | some l =>
            parse_orbital_tokens rest (idx + 1) (record_fallback st el l idx)
          | none =>
            match matchCompactFallback t with
            | some (el2, l) =>
              parse_orbital_tokens (t2 :: rest) (idx + 1) (record_fallback st el2 l idx)
            | none => parse_orbital_tokens (t2 :: rest) idx st
      | none =>
        match matchCompactFallback t with
        | some (el2, l) =>
          parse_orbital_tokens (t2 :: rest) (idx + 1) (record_fallback st el2 l idx)
        | none => parse_orbital_tokens (t2 :: rest) idx st

/-! ### Color assignment (FPLOVisualizer._assign_colors flat cycling, and the
chemistry-aware element-family reassignment of PlotWidget._assign_colors) -/

/-- Python sorted() on a list of strings. -/
def sortStr (l : List String) : List String :=
  List.insertionSort (· ≤ ·) l

/-- Inner loop body of FPLOVisualizer._assign_colors: for the candidate key
element_orbitaltype, assign the next palette color (cycling) when the key is
present in orbital_info, advancing color_index by one. -/
def flat_inner (orbital_info_keys palette : List String) (e : String)
    (acc2 : List (String × String) × ℕ) (t : String) :
    List (String × String) × ℕ :=
  let key := e ++ "_" ++ t
  if orbital_info_keys.contains key then
    (acc2.1 ++ [(key, palette.getD (acc2.2 % palette.length) "")], acc2.2 + 1)
  else acc2

/-- FPLOVisualizer._assign_colors: iterate sorted(elements) ×
sorted(orbital_types), keeping keys present in orbital_info and cycling
through the palette; the result is the orbital_colors mapping in assignment
order. -/
def flat_assign_colors (elements orbital_types orbital_info_keys : List String)
    (palette : List String) : List (String × String) :=
  ((sortStr elements.dedup).foldl (fun acc e =>
    (sortStr orbital_types.dedup).foldl (flat_inner orbital_info_keys palette e)
      acc) (([] : List (String × String)), 0)).1

/-- Color family order of the chemistry-aware scheme (also the key set of
family_palette). -/
def familyNames : List String := ["red", "orange", "green", "cyan", "blue", "violet"]

/-- Five-color sub-palette of each family. -/
def family_palette (fam : String) : List String :=
  if fam = "red" then ["#FF0000", "#B22222", "#DC143C", "#FF6347", "#FF4500"]
  else if fam = "orange" then ["#FFA500", "#FFD700", "#DAA520", "#FFFF00", "#F0E68C"]
  else if fam = "green" then ["#008000", "#00FF00", "#7CFC00", "#7FFF00", "#9ACD32"]
  else if fam = "cyan" then ["#00FFFF", "#40E0D0", "#7FFFD4", "#48D1CC", "#5F9EA0"]
  else if fam = "blue" then ["#0000FF", "#4169E1", "#6495ED", "#1E90FF", "#00BFFF"]
  else if fam = "violet" then ["#800080", "#EE82EE", "#FF00FF", "#8A2BE2", "#DA70D6"]
  else []

/-- Manual element-to-family overrides (the preset table of the source). -/
def manual_family_table : List (String × String) :=
  [("O", "red"), ("Br", "red"),
   ("S", "orange"), ("P", "orange"), ("Si", "orange"), ("B", "orange"),
   ("Al", "orange"), ("Fe", "orange"), ("Cu", "orange"), ("Au", "orange"),
   ("F", "green"), ("Cl", "green"), ("Be", "green"), ("Mg", "green"),
   ("Ca", "green"), ("Cr", "green"), ("V", "green"), ("Ni", "green"),
   ("H", "cyan"), ("C", "cyan"), ("Zn", "cyan"), ("Mo", "cyan"),
   ("W", "cyan"), ("Se", "cyan"),
   ("N", "blue"), ("He", "blue"), ("Ne", "blue"), ("Ar", "blue"),
   ("Kr", "blue"), ("Xe", "blue"), ("Ti", "blue"), ("Co", "blue"),
   ("Ag", "blue"), ("Pt", "blue"),
   ("Li", "violet"), ("Na", "violet"), ("K", "violet"), ("Rb", "violet"),
   ("Cs", "violet"), ("Ba", "violet"), ("Mn", "violet"), ("I", "violet")]

/-- Dict lookup in a string-to-string association list. -/
def lookupStr : List (String × String) → String → Option String
  | [], _ => none
  | (k, v) :: rest, key => if k = key then some v else lookupStr rest key

/-- element_to_family of the source: manual table first (validated against the
family_palette key set), then the stable hash sum(ord(c)) % 6 into the family
order list. -/
def element_to_family (el : String) : String :=
  match lookupStr manual_family_table el with
  | some fam =>
    if fam ∈ familyNames then fam
    else familyNames.getD ((el.data.map Char.toNat).sum % familyNames.length) ""
  | none => familyNames.getD ((el.data.map Char.toNat).sum % familyNames.length) ""

/-- Split a characters list at the first underscore (str.split('_', 1)). -/
def splitAtUnderscore : List Char → Option (List Char × List Char)
  | [] => none
  | c :: rest =>
    if c = '_' then some ([], rest)
    else (splitAtUnderscore rest).map (fun p => (c :: p.1, p.2))

/-- Key split of the source: element, type_part = ok.split('_', 1) when an
underscore is present, else element = type_part = ok. -/
def splitKey (k : String) : String × String :=
  match splitAtUnderscore k.data with
  | some (a, b) => (String.mk a, String.mk b)
  | none => (k, k)

/-- Digits-only int() parse; the source's int(n_part) only ever sees digit
strings here, any other shape takes the except branch (10^9). -/
def parseDigits (cs : List Char) : Option ℕ :=
  if cs ≠ [] ∧ cs.all isDigitC then
    some (cs.foldl (fun acc c => acc * 10 + (c.toNat - '0'.toNat)) 0)
  else none

/-- parse_type of the source: the sort key (ℓ priority, n value, raw string),
with ℓ priority s<p<d<f else 999, n value -1 when absent and 10^9 when
unparseable.  Packaged as a lexicographic triple. -/
def type_sort_key (t : String) : ℕ ×ₗ (ℤ ×ₗ String) :=
  let l_letter : Option Char :=
    match t.data.getLast? with
    | some c => if isSPDF c then some c else none
    | none => none
  let n_part : List Char :=
    match l_letter with
    | some _ => if t.data.length > 1 then t.data.dropLast else []
    | none => []
  let n_val : ℤ :=
    if n_part.isEmpty then -1
    else
      match parseDigits n_part with
      | some v => (v : ℤ)
      | none => 10 ^ 9
  let l_priority : ℕ :=
    match l_letter with
    | some c => if c = 's' then 0 else if c = 'p' then 1 else if c = 'd' then 2 else 3
    | none => 999
  toLex (l_priority, toLex (n_val, t))

/-- Sorting relation induced by the parse_type key; the raw string is the
final tiebreaker, so the key is injective and the relation antisymmetric. -/
def typeRel (a b : String) : Prop := type_sort_key a ≤ type_sort_key b

instance : DecidableRel typeRel := fun a b =>
  inferInstanceAs (Decidable (type_sort_key a ≤ type_sort_key b))

instance : IsTrans String typeRel := ⟨fun _ _ _ h1 h2 => le_trans h1 h2⟩

instance : IsTotal String typeRel := ⟨fun a b => le_total (type_sort_key a) (type_sort_key b)⟩

instance : IsAntisymm String typeRel :=
  ⟨fun a b h1 h2 => by
    have h := le_antisymm h1 h2
    have := congrArg (fun p : ℕ ×ₗ (ℤ ×ₗ String) => (ofLex (ofLex p).2).2) h
    simpa [type_sort_key] using this⟩

/-- Set of type_parts of one element, i.e. element_types[e] of the source.
The Python value is a set built with setdefault(...).add(...); the source
reads it only through sorted(..., key=parse_type) and lookups, both
independent of set order, so the set is modelled extensionally as a Finset. -/
def element_type_set (keys : List String) (e : String) : Finset String :=
  ((keys.filter (fun k => decide ((splitKey k).1 = e))).map
    (fun k => (splitKey k).2)).toFinset

/-- Color of one (element, type_part) pair under the chemistry-aware scheme:
position of the type in the element's parse_type-sorted type list, cycling
through the element's 5-color family palette; the dict .get default
'#95A5A6' covers pairs outside the map. -/
def chem_color_of (keys : List String) (e t : String) : String :=
  let sorted_ts := (element_type_set keys e).sort typeRel
  match sorted_ts.indexOf? t with
  | some i => (family_palette (element_to_family e)).getD
      (i % (family_palette (element_to_family e)).length) ""
  | none => "#95A5A6"

/-- Final chemistry-aware reassignment of PlotWidget._assign_colors: the
new_colors dict built over sorted(orbital_info.keys()), which overwrites the
whole color map for the academic/colorful schemes. -/
def chem_assign_colors (keys : List String) : List (String × String) :=
  (sortStr keys).map (fun k => (k, chem_color_of keys (splitKey k).1 (splitKey k).2))

/-! ### Theorems for C1 and C2 -/

/-- C1: the material classifier returns "metal" whenever at least one band b
has `min_k E[k][b] <= 0 <= max_k E[k][b]` (a single Fermi-crossing band
suffices); otherwise, with band_gap = cbm - vbm, it returns "metal" when
band_gap < 0.1, "semiconductor" when 0.1 <= band_gap < 1.5 and "insulator"
when band_gap >= 1.5; in particular vbm = -1, cbm = +1 gives band_gap = 2 and
classification "insulator". -/
theorem classify_material_type_spec :
    (∀ (be : List (List ℚ)) (nb : Nat) (gap : ℚ),
      ((∃ b, b < nb ∧ npMin (column be b) ≤ 0 ∧ 0 ≤ npMax (column be b)) →
        classify_material_type be nb 0 gap = "metal")
      ∧ ((∀ b, b < nb → ¬(npMin (column be b) ≤ 0 ∧ 0 ≤ npMax (column be b))) →
        classify_material_type be nb 0 gap =
          if gap < 1/10 then "metal"
          else if gap < 3/2 then "semiconductor" else "insulator"))
    ∧ (vbmOf [[-1, 1]] = -1 ∧ cbmOf [[-1, 1]] = 1
      ∧ classify_material_type [[-1, 1]] 2 0 (cbmOf [[-1, 1]] - vbmOf [[-1, 1]]) =
          "insulator") := by
  refine ⟨fun be nb gap => ⟨fun h => ?_, fun h => ?_⟩, by decide, by decide, ?_⟩
  · obtain ⟨b, hb, hcross⟩ := h
    have hmem : b ∈ fermi_crossing_bands be nb 0 := by
      simp [fermi_crossing_bands, List.mem_filter, List.mem_range, hb, hcross]
    have hlen : (fermi_crossing_bands be nb 0).length > 0 :=
      List.length_pos.mpr (fun he => by simp [he] at hmem)
    simp [classify_material_type, hlen]
  · have hempty : fermi_crossing_bands be nb 0 = [] := by
      apply List.eq_nil_iff_forall_not_mem.mpr
      intro b hmem
      rw [fermi_crossing_bands, List.mem_filter, List.mem_range] at hmem
      exact h b hmem.1 (by simpa using hmem.2)
    simp [classify_material_type, hempty]
  · have hfc : fermi_crossing_bands [[-1, 1]] 2 0 = [] := by decide
    have hv : vbmOf [[-1, 1]] = -1 := by decide
    have hc : cbmOf [[-1, 1]] = 1 := by decide
    simp only [classify_material_type, hfc, hv, hc, List.length_nil]
    norm_num

/-- Witness for C1: a band touching 0 at a single k forces "metal" even with a
huge nominal gap, and the no-crossing branch classifies gap 2 as "insulator". -/
theorem classify_material_type_spec_witness :
    classify_material_type [[0]] 1 0 5 = "metal"
    ∧ classify_material_type [[-1, 1]] 2 0 2 = "insulator" := by
  constructor
  · exact (classify_material_type_spec.1 [[0]] 1 5).1 ⟨0, by decide, by decide, by decide⟩
  · have h := (classify_material_type_spec.1 [[-1, 1]] 2 2).2 (by decide)
    norm_num at h
    exact h

/-- C2: set_fermi_window(s) and the user-override branch both return the
window (fermi - s/2, fermi + s/2); the window is exactly centered on the
Fermi energy (upper - fermi = fermi - lower) and for user sizes s1 < s2 the
width (upper - lower) is strictly larger for s2. -/
theorem set_fermi_window_spec :
    ∀ (fermi : ℚ),
      (∀ s, (set_fermi_window_pair fermi s).2 - fermi
            = fermi - (set_fermi_window_pair fermi s).1)
      ∧ (∀ s, user_window_branch fermi s = set_fermi_window_pair fermi s)
      ∧ (∀ s1 s2, s1 < s2 →
          (set_fermi_window_pair fermi s1).2 - (set_fermi_window_pair fermi s1).1
            < (set_fermi_window_pair fermi s2).2 - (set_fermi_window_pair fermi s2).1) := by
  intro fermi
  refine ⟨fun s => ?_, fun s => rfl, fun s1 s2 h => ?_⟩
  · simp only [set_fermi_window_pair]
    ring
  · have h1 : (set_fermi_window_pair fermi s1).2 - (set_fermi_window_pair fermi s1).1 = s1 := by
      simp only [set_fermi_window_pair]
      ring
    have h2 : (set_fermi_window_pair fermi s2).2 - (set_fermi_window_pair fermi s2).1 = s2 := by
      simp only [set_fermi_window_pair]
      ring
    rw [h1, h2]; exact h

/-- Witness for C2 at fermi = 0, s1 = 2, s2 = 6. -/
theorem set_fermi_window_spec_witness :
    (set_fermi_window_pair 0 2).2 - 0 = 0 - (set_fermi_window_pair 0 2).1
    ∧ (set_fermi_window_pair 0 2).2 - (set_fermi_window_pair 0 2).1
        < (set_fermi_window_pair 0 6).2 - (set_fermi_window_pair 0 6).1 :=
  ⟨(set_fermi_window_spec 0).1 2, (set_fermi_window_spec 0).2.2 2 6 (by norm_num)⟩

/-! ### Theorems for C4 and C10 -/

/-- Ceiling-division bound used for Python range lengths. -/
theorem lt_ceil_div_iff {s K i : ℕ} (hs : 0 < s) : i < (K + s - 1) / s ↔ s * i < K := by
  obtain ⟨a, ha⟩ : ∃ a, i * s = a := ⟨_, rfl⟩
  rw [mul_comm s i, ha]
  constructor
  · intro h
    have h2 : (i + 1) * s ≤ K + s - 1 :=
      (Nat.le_div_iff_mul_le hs).1 (Nat.succ_le_of_lt h)
    rw [add_mul, one_mul, ha] at h2
    omega
  · intro h
    have h2 : (i + 1) * s ≤ K + s - 1 := by
      rw [add_mul, one_mul, ha]
      omega
    exact (Nat.le_div_iff_mul_le hs).2 h2

/-- Membership in Python range(0, K, s). -/
theorem mem_pyRange_iff {s K i : ℕ} (hs : 0 < s) :
    i ∈ pyRange 0 K s ↔ s ∣ i ∧ i < K := by
  rw [pyRange, List.mem_range']
  constructor
  · rintro ⟨j, hj, rfl⟩
    rw [zero_add]
    exact ⟨Dvd.intro j rfl, (lt_ceil_div_iff hs).1 hj⟩
  · rintro ⟨⟨j, rfl⟩, hlt⟩
    exact ⟨j, (lt_ceil_div_iff hs).2 hlt, (zero_add _).symm⟩

/-- The stride is always positive. -/
theorem k_sample_step_pos (K : ℕ) (mk : Option ℕ) : 0 < k_sample_step K mk := by
  rcases mk with _ | m
  · exact Nat.one_pos
  · rw [k_sample_step]
    split
    · next h => exact Nat.div_pos h.2.le (Nat.pos_of_ne_zero h.1)
    · exact Nat.one_pos

/-- Helper: filterMap with an everywhere-some function preserves length. -/
theorem length_filterMap_of_isSome {α β : Type} (f : α → Option β) :
    ∀ (l : List α), (∀ a ∈ l, (f a).isSome) → (l.filterMap f).length = l.length := by
  intro l
  induction l with
  | nil => intro _; rfl
  | cons a l ih =>
    intro h
    rw [List.filterMap_cons]
    rcases hfa : f a with _ | b
    · exact absurd (h a (List.mem_cons_self a l)) (by simp [hfa])
    · simp only [List.length_cons, ih (fun x hx => h x (List.mem_cons_of_mem a hx))]

/-- C4: with num_kpoints full k-point groups and num_kpoints > max_kpoints,
the loader decimates with stride num_kpoints // max_kpoints, keeping exactly
the k-indices divisible by the stride, so the retained count is
len(range(0, num_kpoints, stride)); in particular num_kpoints = 414 with
max_kpoints = 100 gives stride 4 and exactly 104 retained k-points. -/
theorem k_point_decimation_spec :
    (∀ (K M : ℕ), 0 < M → M < K →
      k_sample_step K (some M) = K / M
      ∧ (∀ i, i ∈ pyRange 0 K (K / M) ↔ (K / M) ∣ i ∧ i < K)
      ∧ (pyRange 0 K (K / M)).length = (K + K / M - 1) / (K / M))
    ∧ (∀ (all_data : List RawRow) (mk : Option ℕ) (B K : ℕ) (t : BandTensor),
      infer_num_bands all_data = B → 0 < B → all_data.length = K * B →
      read_and_parse_data all_data mk = Except.ok t →
      t.k_points.length = (pyRange 0 K (k_sample_step K mk)).length)
    ∧ k_sample_step 414 (some 100) = 4
    ∧ (pyRange 0 414 4).length = 104 := by
  refine ⟨fun K M hM hMK => ?_, fun all_data mk B K t hinf hB hlen hok => ?_, by decide, by decide⟩
  · have hstep : 0 < K / M := Nat.div_pos hMK.le hM
    refine ⟨?_, fun i => mem_pyRange_iff hstep, by simp [pyRange]⟩
    rw [k_sample_step, if_pos ⟨hM.ne', hMK⟩]
  · have hB0 : infer_num_bands all_data ≠ 0 := by omega
    simp only [read_and_parse_data, if_neg hB0] at hok
    injection hok with ht
    subst ht
    have hK : all_data.length / B = K := by
      rw [hlen, Nat.mul_div_cancel K hB]
    simp only [hinf, hK]
    apply length_filterMap_of_isSome
    intro a ha
    have haK : a < K :=
      ((mem_pyRange_iff (k_sample_step_pos K mk)).1 ha).2
    have hidx : a * B < all_data.length := by
      rw [hlen]
      exact mul_lt_mul_of_pos_right haK hB
    rw [List.getElem?_eq_getElem hidx]
    rfl

/-- Witness for C4: a 3-row file with one band and max_kpoints = 2 retains
len(range(0, 3, 1)) = 3 k-points, and the stride and membership facts hold at
K = 5, M = 2. -/
theorem k_point_decimation_spec_witness :
    (k_sample_step 5 (some 2) = 5 / 2
      ∧ (4 ∈ pyRange 0 5 (5 / 2) ↔ (5 / 2) ∣ 4 ∧ 4 < 5))
    ∧ (BandTensor.mk [0, 1, 2] [[0], [0], [0]] [[[0]], [[0]], [[0]]] 1 3).k_points.length
        = (pyRange 0 3 (k_sample_step 3 (some 2))).length := by
  constructor
  · exact ⟨(k_point_decimation_spec.1 5 2 (by norm_num) (by norm_num)).1,
      (k_point_decimation_spec.1 5 2 (by norm_num) (by norm_num)).2.1 4⟩
  · refine k_point_decimation_spec.2.1
      [⟨0, 0, [0]⟩, ⟨1, 0, [0]⟩, ⟨2, 0, [0]⟩] (some 2) 1 3 _ ?_ (by norm_num) (by norm_num) ?_
    · norm_num [infer_num_bands]
    · norm_num [read_and_parse_data, infer_num_bands, k_sample_step, pyRange,
        List.range', List.filterMap, List.range]

/-- C10: when the first data row has abs(k) >= 1e-6, the inferred band count
is 0 and the loader aborts with ZeroDivisionError at the
num_kpoints = total_rows // num_bands step, producing no tensor (the data
fields stay unassigned). -/
theorem loader_aborts_on_nonzero_first_k :
    ∀ (r : RawRow) (rs : List RawRow) (mk : Option ℕ),
      1/1000000 ≤ |r.k| →
      infer_num_bands (r :: rs) = 0
      ∧ read_and_parse_data (r :: rs) mk = Except.error "ZeroDivisionError" := by
  intro r rs mk h
  have h0 : infer_num_bands (r :: rs) = 0 := by
    simp only [infer_num_bands, if_neg (not_lt.mpr h)]
  exact ⟨h0, by simp only [read_and_parse_data, h0, if_pos]⟩

/-- Witness for C10 at the single-row file whose first k is 1. -/
theorem loader_aborts_on_nonzero_first_k_witness :
    infer_num_bands [⟨1, 0, [0]⟩] = 0
    ∧ read_and_parse_data [⟨1, 0, [0]⟩] none = Except.error "ZeroDivisionError" :=
  loader_aborts_on_nonzero_first_k ⟨1, 0, [0]⟩ [] none (by norm_num)

/-! ### Theorems for C5 -/

/-- Counterexample for C5: a single band sampled at energies -5 and 5 with the
user window (-1, 1) from set_fermi_window(2).  Its energy range [-5, 5]
intersects the window and it crosses the Fermi level, so the claim (range
intersection) puts it in the ImportantBandSet, but no sampled energy lies
inside the window, so the implementation excludes it. -/
theorem important_bands_range_intersection_refuted :
    set_fermi_window_pair 0 2 = (-1, 1)
    ∧ spec_important_band [[-5], [5]] (-1, 1) 0 0
    ∧ identify_important_bands [[-5], [5]] 1 (-1, 1) 0 = [] := by
  refine ⟨by norm_num [set_fermi_window_pair], ?_, ?_⟩
  · norm_num [spec_important_band, column, npMin, npMax]
  · norm_num [identify_important_bands, column, npMin, npMax, List.range,
      List.range_succ, List.filter, List.any]

/-! ### Theorems for C6 -/

/-- Helper: a nested fold over two index lists is a fold over the pair list. -/
theorem foldl_pairs_general {α β γ : Type} (g : α → β → γ → γ)
    (l1 : List α) (l2 : List β) :
    ∀ (init : γ),
      l1.foldl (fun acc a => l2.foldl (fun acc2 b => g a b acc2) acc) init
        = (l1.flatMap (fun a => l2.map (fun b => (a, b)))).foldl
            (fun acc p => g p.1 p.2 acc) init := by
  induction l1 with
  | nil => intro init; rfl
  | cons a t ih =>
    intro init
    simp only [List.flatMap_cons, List.foldl_cons, List.foldl_append, List.foldl_map]
    exact ih _

/-- Helper: folding a filtered accumulation produces the filtered sum and the
filtered count. -/
theorem foldl_filter_acc {α : Type} (p : α → Prop) [DecidablePred p] (f : α → ℚ) :
    ∀ (l : List α) (t0 : ℚ) (c0 : ℕ),
      l.foldl (fun acc x => if p x then (acc.1 + f x, acc.2 + 1) else acc) (t0, c0)
        = (t0 + ((l.filter (fun x => decide (p x))).map f).sum,
          c0 + (l.filter (fun x => decide (p x))).length) := by
  intro l
  induction l with
  | nil => intro t0 c0; simp
  | cons a t ih =>
    intro t0 c0
    by_cases h : p a
    · rw [List.foldl_cons, if_pos h, ih, List.filter_cons_of_pos (by simpa using h),
        List.map_cons, List.sum_cons, List.length_cons]
      rw [Prod.mk.injEq]
      exact ⟨by ring, by omega⟩
    · rw [List.foldl_cons, if_neg h, ih, List.filter_cons_of_neg (by simpa using h)]

/-- Helper: folds of pointwise-equal step functions agree. -/
theorem foldl_congr_mem {α γ : Type} (f g : γ → α → γ) :
    ∀ (l : List α), (∀ a ∈ l, ∀ acc, f acc a = g acc a) →
      ∀ init, l.foldl f init = l.foldl g init := by
  intro l
  induction l with
  | nil => intro _ _; rfl
  | cons a t ih =>
    intro h init
    rw [List.foldl_cons, List.foldl_cons, h a (List.mem_cons_self a t),
      ih (fun x hx acc => h x (List.mem_cons_of_mem a hx) acc)]

/-- C6: for each bin center E, the computed density is the mean of the
significant weights over the qualifying (k, band) pairs — those whose band
energy is within ±bin_width of E — each counted exactly once in the
denominator, defaulting to 0 when no pair qualifies. -/
theorem orbital_weight_density_spec :
    ∀ (be : List (List ℚ)) (wts : List (List (List ℚ))) (K B : ℕ) (E estep : ℚ),
      K ≤ wts.length →
      (∀ k, k < K → B ≤ (wts.getD k []).length) →
      orbital_weight_density_at be wts K B E estep
        = if (qualifying_pairs be K B E estep).length = 0 then 0
          else ((qualifying_pairs be K B E estep).map
              (fun p => significant_weight_sum ((wts.getD p.1 []).getD p.2 []))).sum
            / ((qualifying_pairs be K B E estep).length : ℚ) := by
  intro be wts K B E estep hK hB
  have hmem : ∀ p ∈ indexPairs K B, p.1 < K ∧ p.2 < B := by
    intro p hp
    rw [indexPairs, List.mem_flatMap] at hp
    obtain ⟨k, hk, hp⟩ := hp
    rw [List.mem_map] at hp
    obtain ⟨b, hb, rfl⟩ := hp
    exact ⟨List.mem_range.1 hk, List.mem_range.1 hb⟩
  have h1 := foldl_pairs_general
    (fun a b acc2 => weight_density_step be wts E estep a acc2 b)
    (List.range K) (List.range B) ((0 : ℚ), (0 : ℕ))
  have h2 := foldl_congr_mem
    (fun acc2 (p : ℕ × ℕ) => weight_density_step be wts E estep p.1 acc2 p.2)
    (fun acc2 (p : ℕ × ℕ) =>
      if |(be.getD p.1 []).getD p.2 0 - E| ≤ estep then
        (acc2.1 + significant_weight_sum ((wts.getD p.1 []).getD p.2 []), acc2.2 + 1)
      else acc2)
    (indexPairs K B) ?_ ((0 : ℚ), (0 : ℕ))
  · have h3 := foldl_filter_acc
      (fun p : ℕ × ℕ => |(be.getD p.1 []).getD p.2 0 - E| ≤ estep)
      (fun p : ℕ × ℕ => significant_weight_sum ((wts.getD p.1 []).getD p.2 []))
      (indexPairs K B) 0 0
    have hacc : weight_density_acc be wts K B E estep
        = (((qualifying_pairs be K B E estep).map
            (fun p => significant_weight_sum ((wts.getD p.1 []).getD p.2 []))).sum,
          (qualifying_pairs be K B E estep).length) := by
      rw [weight_density_acc]
      refine (h1.trans (h2.trans h3)).trans ?_
      rw [qualifying_pairs, Prod.mk.injEq]
      exact ⟨zero_add _, zero_add _⟩
    rw [orbital_weight_density_at, hacc]
    by_cases hq : (qualifying_pairs be K B E estep).length = 0
    · rw [if_pos hq, hq]
      have : qualifying_pairs be K B E estep = [] := List.length_eq_zero.1 hq
      simp [this]
    · rw [if_neg hq]
      have hmax : max ((qualifying_pairs be K B E estep).length) 1
          = (qualifying_pairs be K B E estep).length := by omega
      rw [hmax]
  · intro p hp acc
    obtain ⟨hp1, hp2⟩ := hmem p hp
    simp only [weight_density_step]
    by_cases hc : |(be.getD p.1 []).getD p.2 0 - E| ≤ estep
    · rw [if_pos hc, if_pos hc,
        if_pos ⟨lt_of_lt_of_le hp1 hK, lt_of_lt_of_le hp2 (hB p.1 hp1)⟩]
    · rw [if_neg hc, if_neg hc]

/-- Witness for C6: one k-point, two bands at energies 0 and 10, bin center 0
with bin width 0.1; only the first pair qualifies; its significant weight is
0.01 (the 0.001 entry is below the 0.005 threshold), so the density is 0.01. -/
theorem orbital_weight_density_spec_witness :
    orbital_weight_density_at [[0, 10]] [[[1/100, 1/1000], [1]]] 1 2 0 (1/10)
      = 1/100 := by
  have h := orbital_weight_density_spec [[0, 10]] [[[1/100, 1/1000], [1]]] 1 2 0 (1/10)
    (by norm_num) (fun k hk => by interval_cases k; norm_num)
  rw [h]
  norm_num [qualifying_pairs, indexPairs, List.range_succ, significant_weight_sum]

/-- C5 amended: b is in the ImportantBandSet iff b < B, some sampled energy
of band b lies within the current EnergyWindow, and the band crosses the
Fermi level (min_k E <= fermi <= max_k E) or its minimum distance to the
Fermi level is <= 3 eV; and the set is recomputed from the new window
whenever set_fermi_window changes it. -/
theorem identify_important_bands_spec :
    (∀ (be : List (List ℚ)) (nb : ℕ) (w : ℚ × ℚ) (fermi : ℚ) (b : ℕ),
      b ∈ identify_important_bands be nb w fermi ↔
        b < nb
        ∧ (∃ e ∈ column be b, w.1 ≤ e ∧ e ≤ w.2)
        ∧ ((npMin (column be b) ≤ fermi ∧ fermi ≤ npMax (column be b))
          ∨ npMin ((column be b).map (fun e => |e - fermi|)) ≤ 3))
    ∧ (∀ (st : FermiVizState) (size : ℚ),
      (set_fermi_window st size).1.important_bands
        = identify_important_bands st.band_energies st.num_bands
            (st.fermi_energy - size / 2, st.fermi_energy + size / 2) st.fermi_energy
      ∧ (set_fermi_window st size).2
        = (st.fermi_energy - size / 2, st.fermi_energy + size / 2)) := by
  constructor
  · intro be nb w fermi b
    rw [identify_important_bands, List.mem_filter, List.mem_range]
    simp only [List.any_eq_true, decide_eq_true_eq, Bool.and_eq_true, Bool.or_eq_true]
  · intro st size
    exact ⟨rfl, rfl⟩

/-! ### Theorems for C9 -/

/-- Helper: Python sorted() depends only on the multiset of entries. -/
theorem sortStr_eq_of_perm {l1 l2 : List String} (h : List.Perm l1 l2) :
    sortStr l1 = sortStr l2 :=
  List.eq_of_perm_of_sorted
    ((List.perm_insertionSort _ l1).trans (h.trans (List.perm_insertionSort _ l2).symm))
    (List.sorted_insertionSort _ l1) (List.sorted_insertionSort _ l2)

/-- C9: with a fixed set of orbital keys (and fixed element/orbital-type sets
and palette), color assignment is deterministic: any two insertion orders of
the same sets give identical color maps, for both the flat palette cycling
scheme and the chemistry-aware element-family scheme with its
sum-of-char-codes mod 6 hash fallback. -/
theorem color_assignment_deterministic :
    (∀ (e1 e2 t1 t2 k1 k2 pal : List String),
      e1.toFinset = e2.toFinset → t1.toFinset = t2.toFinset →
      k1.toFinset = k2.toFinset →
      flat_assign_colors e1 t1 k1 pal = flat_assign_colors e2 t2 k2 pal)
    ∧ (∀ (k1 k2 : List String), k1.Nodup → k2.Nodup → k1.toFinset = k2.toFinset →
      chem_assign_colors k1 = chem_assign_colors k2) := by
  constructor
  · intro e1 e2 t1 t2 k1 k2 pal he ht hk
    have hes : sortStr e1.dedup = sortStr e2.dedup :=
      sortStr_eq_of_perm (List.toFinset_eq_iff_perm_dedup.1 he)
    have hts : sortStr t1.dedup = sortStr t2.dedup :=
      sortStr_eq_of_perm (List.toFinset_eq_iff_perm_dedup.1 ht)
    have hcont : ∀ key : String, k1.contains key = k2.contains key := by
      intro key
      rw [Bool.eq_iff_iff, List.elem_iff, List.elem_iff,
        ← List.mem_toFinset, ← List.mem_toFinset, hk]
    have hinner : flat_inner k1 pal = flat_inner k2 pal := by
      funext e acc2 t
      simp only [flat_inner]
      rw [hcont (e ++ "_" ++ t)]
    simp only [flat_assign_colors, hes, hts, hinner]
  · intro k1 k2 hn1 hn2 hk
    have hmem : ∀ key : String, key ∈ k1 ↔ key ∈ k2 := by
      intro key
      rw [← List.mem_toFinset, ← List.mem_toFinset, hk]
    have hsort : sortStr k1 = sortStr k2 :=
      sortStr_eq_of_perm (List.perm_of_nodup_nodup_toFinset_eq hn1 hn2 hk)
    have hets : ∀ e, element_type_set k1 e = element_type_set k2 e := by
      intro e
      apply Finset.ext
      intro t
      simp only [element_type_set, List.mem_toFinset, List.mem_map, List.mem_filter,
        decide_eq_true_eq]
      constructor
      · rintro ⟨k, ⟨hk1, hsp⟩, rfl⟩
        exact ⟨k, ⟨(hmem k).1 hk1, hsp⟩, rfl⟩
      · rintro ⟨k, ⟨hk2, hsp⟩, rfl⟩
        exact ⟨k, ⟨(hmem k).2 hk2, hsp⟩, rfl⟩
    have hfun : (fun k => (k, chem_color_of k1 (splitKey k).1 (splitKey k).2))
        = (fun k => (k, chem_color_of k2 (splitKey k).1 (splitKey k).2)) := by
      funext k
      simp only [chem_color_of, hets]
    simp only [chem_assign_colors, hsort, hfun]

/-- Witness for C9: the key set {Cs_5p, O_2p} inserted in the two opposite
orders gives identical flat-cycling maps and identical chemistry-aware maps
(Cs is manually violet; a fabricated element Qq exercises the hash
fallback). -/
theorem color_assignment_deterministic_witness :
    flat_assign_colors ["Cs", "O"] ["5p", "2p"] ["Cs_5p", "O_2p"] ["#A", "#B"]
      = flat_assign_colors ["O", "Cs"] ["2p", "5p"] ["O_2p", "Cs_5p"] ["#A", "#B"]
    ∧ chem_assign_colors ["Cs_5p", "O_2p", "Qq_3d"]
      = chem_assign_colors ["Qq_3d", "O_2p", "Cs_5p"] :=
  ⟨color_assignment_deterministic.1 ["Cs", "O"] ["O", "Cs"] ["5p", "2p"]
      ["2p", "5p"] ["Cs_5p", "O_2p"] ["O_2p", "Cs_5p"] ["#A", "#B"]
      (by decide) (by decide) (by decide),
    color_assignment_deterministic.2 ["Cs_5p", "O_2p", "Qq_3d"]
      ["Qq_3d", "O_2p", "Cs_5p"] (by decide) (by decide) (by decide)⟩

/-! ### Theorem for C3 -/

/-- C3: the split-form token sequence ["Cs", "(001)5p1/2-1/2", "Cs",
"(001)5p3/2-1/2"] at weight-column cursor 0 yields
orbital_info["Cs_5p"] == [0, 1] (both spin-orbit components collapse into one
key consuming consecutive weight indices), and the compact-form token
"O(002)2p1/2-1/2" at cursor 3 yields orbital_info["O_2p"] == [3]. -/
theorem parse_orbital_labels_scenarios :
    lookupGroup (parse_orbital_tokens
        ["Cs".data, "(001)5p1/2-1/2".data, "Cs".data, "(001)5p3/2-1/2".data] 0
        ⟨[], [], []⟩).orbital_info "Cs_5p" = some [0, 1]
    ∧ lookupGroup (parse_orbital_tokens ["O(002)2p1/2-1/2".data] 3
        ⟨[], [], []⟩).orbital_info "O_2p" = some [3] := by
  constructor
  · decide
  · decide

/-! ### Theorems for C7 and C8 -/

/-- Helper: a fold whose step never changes the state returns its initial
state. -/
theorem foldl_no_update {α β : Type} (f : β → α → β) :
    ∀ (l : List α), (∀ x ∈ l, ∀ s, f s x = s) → ∀ init, l.foldl f init = init := by
  intro l
  induction l with
  | nil => intro _ _; rfl
  | cons a t ih =>
    intro h init
    rw [List.foldl_cons, h a (List.mem_cons_self a t),
      ih (fun x hx s => h x (List.mem_cons_of_mem a hx) s)]

/-- Counterexample for C7: a metallic spectrum whose energy grid spans only
[-2, 2] eV with 1 eV bins.  The upper search examines only bin 3 (energy
1 eV, inside the 2 eV exclusion zone) and the lower loop only bin 1, so no
bin beyond the exclusion zone is ever examined; the search keeps its default
index fermi_idx + base_idx_half = 5, which is out of range for the 5-entry
grid, and the window selection raises IndexError (modelled none) instead of
falling back to start_energy + 6. -/
theorem boundary_fallback_refuted :
    (∀ idx ∈ upper_search_indices [-2, -1, 0, 1, 2] 2 3 6 "metal" 0 0,
      ¬ ((pyGetQ [-2, -1, 0, 1, 2] idx).getD 0 > (0 : ℚ) + 2))
    ∧ (∀ idx ∈ lower_search_indices [-2, -1, 0, 1, 2] 2 3 6 "metal" 0 0,
      ¬ ((pyGetQ [-2, -1, 0, 1, 2] idx).getD 0 < (0 : ℚ) - 2))
    ∧ adaptive_boundary_selection [-2, -1, 0, 1, 2] [1, 1, 1, 1, 1] "metal" 0 0 0 0
        = none := by
  have hup : upper_search_indices [-2, -1, 0, 1, 2] 2 3 6 "metal" 0 0 = [3] := by
    rw [upper_search_indices]
    norm_num [pyInt, List.getD]
    decide
  have hlo : lower_search_indices [-2, -1, 0, 1, 2] 2 3 6 "metal" 0 0 = [1] := by
    rw [lower_search_indices]
    norm_num [pyInt, List.getD]
    decide
  have hub : find_smart_upper_boundary [-2, -1, 0, 1, 2] [1, 1, 1, 1, 1] 0 2 3 6
      "metal" 0 0 = none := by
    rw [find_smart_upper_boundary, hup]
    norm_num [pyInt, List.getD, upper_scan_step, pySlice, npMeanOpt, lt_nan_inf,
      pyGetQ]
    decide
  refine ⟨?_, ?_, ?_⟩
  · rw [hup]
    intro idx hidx
    rw [List.mem_singleton] at hidx
    subst hidx
    norm_num [pyGetQ]
    all_goals decide
  · rw [hlo]
    intro idx hidx
    rw [List.mem_singleton] at hidx
    subst hidx
    norm_num [pyGetQ]
  · rw [adaptive_boundary_selection]
    have hf : argmin_abs [-2, -1, 0, 1, 2] 0 = 2 := by
      norm_num [argmin_abs, argmin_abs_aux, abs_of_nonneg, abs_of_nonpos]
    norm_num [hf, pyInt, List.getD, hub]

/-- C7 amended: when the active upper-boundary search examines no bin beyond
the 2 eV exclusion zone, the tracked index keeps its initialized default
fermi_idx + base_idx_half (roughly Fermi + base half-width, not
start_energy + 6); the boundary is that bin's energy clamped to
[Fermi + 3, Fermi + 12] when the index is inside the grid, and the lookup
fails with IndexError when it is not — only the unused
_find_upper_limit/_find_lower_limit variants fall back to start_energy ± 6. -/
theorem upper_boundary_search_exhaustion :
    ∀ (grid scores : List ℚ) (fermi : ℚ) (fermi_idx base_idx_half search_idx_half : ℤ)
      (mat : String) (cbm band_gap : ℚ),
      (∀ idx ∈ upper_search_indices grid fermi_idx base_idx_half search_idx_half
          mat cbm band_gap,
        ¬ ((pyGetQ grid idx).getD 0 > fermi + 2)) →
      find_smart_upper_boundary grid scores fermi fermi_idx base_idx_half
          search_idx_half mat cbm band_gap
        = (pyGetQ grid (fermi_idx + base_idx_half)).map
            (fun u => min (max u (fermi + 3)) (fermi + 12)) := by
  intro grid scores fermi fermi_idx b s mat cbm gap h
  have hstep : ∀ idx ∈ upper_search_indices grid fermi_idx b s mat cbm gap,
      ∀ st : ℤ × Option ℚ,
        upper_scan_step grid scores fermi
          (pyInt (1/2 / (grid.getD 1 0 - grid.getD 0 0))) st idx = st := by
    intro idx hidx st
    simp only [upper_scan_step, decide_eq_false (h idx hidx), Bool.and_false,
      Bool.false_eq_true, if_false]
  simp only [find_smart_upper_boundary,
    foldl_no_update _ _ hstep (fermi_idx + b, (none : Option ℚ))]

/-- Witness for C7 (amended): a 6-bin metallic grid whose single examined bin
has energy 1 eV ≤ 2 eV; the result is the default bin's energy 1 clamped up
to Fermi + 3 = 3. -/
theorem upper_boundary_search_exhaustion_witness :
    find_smart_upper_boundary [-3, -2, -1, 0, 1, 2] [1, 1, 1, 1, 1, 1] 0 3 1 10
        "metal" 0 0 = some 3 := by
  have h := upper_boundary_search_exhaustion [-3, -2, -1, 0, 1, 2]
    [1, 1, 1, 1, 1, 1] 0 3 1 10 "metal" 0 0 ?_
  · rw [h]
    norm_num [pyGetQ]
    all_goals decide
  · have hup : upper_search_indices [-3, -2, -1, 0, 1, 2] 3 1 10 "metal" 0 0 = [4] := by
      rw [upper_search_indices]
      norm_num [pyInt, List.getD]
      decide
    rw [hup]
    intro idx hidx
    rw [List.mem_singleton] at hidx
    subst hidx
    norm_num [pyGetQ]
    all_goals decide

/-- Counterexample for C8: set_fermi_window(0) produces the degenerate window
(0, 0), which does not satisfy upper > lower. -/
theorem energy_window_positive_width_refuted :
    ¬ ((set_fermi_window ⟨[[0]], 1, 0, (-2, 2), none, []⟩ 0).2.1
        < (set_fermi_window ⟨[[0]], 1, 0, (-2, 2), none, []⟩ 0).2.2) := by
  norm_num [set_fermi_window]

/-- C8 amended: every window produced by the automatic adaptive selection
(when it returns without raising) and every window produced by
set_fermi_window(size) with size > 0 satisfies upper > lower. -/
theorem energy_window_positive_width :
    (∀ (st : FermiVizState) (size : ℚ), 0 < size →
      (set_fermi_window st size).2.1 < (set_fermi_window st size).2.2)
    ∧ (∀ (grid scores : List ℚ) (mat : String) (fermi vbm cbm gap lo up : ℚ),
      adaptive_boundary_selection grid scores mat fermi vbm cbm gap = some (lo, up) →
      lo < up) := by
  constructor
  · intro st size hs
    simp only [set_fermi_window]
    linarith
  · intro grid scores mat fermi vbm cbm gap lo up h
    have hcomb : ∀ lb ub : ℚ, (combine_boundaries lb ub).1 < (combine_boundaries lb ub).2 := by
      intro lb ub
      rw [combine_boundaries]
      split
      · show (ub + lb) / 2 - 4 / 2 < (ub + lb) / 2 + 4 / 2
        linarith
      · next hw =>
        show lb < ub
        linarith [not_lt.1 hw]
    rw [adaptive_boundary_selection] at h
    rcases hub : find_smart_upper_boundary grid scores fermi
        ((argmin_abs grid fermi : ℕ) : ℤ)
        (pyInt ((if mat = "metal" then ((3 : ℚ), (6 : ℚ))
          else if mat = "semiconductor" then (4, 8) else (5, 10)).1
            / (grid.getD 1 0 - grid.getD 0 0)))
        (pyInt ((if mat = "metal" then ((3 : ℚ), (6 : ℚ))
          else if mat = "semiconductor" then (4, 8) else (5, 10)).2
            / (grid.getD 1 0 - grid.getD 0 0)))
        mat cbm gap with _ | ub
    · rw [hub] at h
      exact absurd h (by simp)
    · rw [hub] at h
      rcases hlb : find_smart_lower_boundary grid scores fermi
          ((argmin_abs grid fermi : ℕ) : ℤ)
          (pyInt ((if mat = "metal" then ((3 : ℚ), (6 : ℚ))
            else if mat = "semiconductor" then (4, 8) else (5, 10)).1
              / (grid.getD 1 0 - grid.getD 0 0)))
          (pyInt ((if mat = "metal" then ((3 : ℚ), (6 : ℚ))
            else if mat = "semiconductor" then (4, 8) else (5, 10)).2
              / (grid.getD 1 0 - grid.getD 0 0)))
          mat vbm gap with _ | lb
      · rw [hlb] at h
        exact absurd h (by simp)
      · rw [hlb] at h
        simp at h
        have := hcomb lb ub
        rw [h] at this
        exact this

/-- Helper: the adaptive selection specialized to material "metal"
(base/search half-widths 3 and 6 eV). -/
theorem adaptive_metal (grid scores : List ℚ) (fermi vbm cbm gap : ℚ) :
    adaptive_boundary_selection grid scores "metal" fermi vbm cbm gap
      = (find_smart_upper_boundary grid scores fermi ((argmin_abs grid fermi : ℕ) : ℤ)
          (pyInt (3 / (grid.getD 1 0 - grid.getD 0 0)))
          (pyInt (6 / (grid.getD 1 0 - grid.getD 0 0))) "metal" cbm gap).bind (fun ub =>
        (find_smart_lower_boundary grid scores fermi ((argmin_abs grid fermi : ℕ) : ℤ)
          (pyInt (3 / (grid.getD 1 0 - grid.getD 0 0)))
          (pyInt (6 / (grid.getD 1 0 - grid.getD 0 0))) "metal" vbm gap).map (fun lb =>
          combine_boundaries lb ub)) := rfl

set_option maxHeartbeats 1000000 in
/-- Witness for C8: set_fermi_window(4) gives (-2, 2) with -2 < 2, and a
12-bin metallic grid drives the adaptive selection to the window (-3, 3)
with -3 < 3. -/
theorem energy_window_positive_width_witness :
    (set_fermi_window ⟨[[0]], 1, 0, (-2, 2), none, []⟩ 4).2.1
      < (set_fermi_window ⟨[[0]], 1, 0, (-2, 2), none, []⟩ 4).2.2
    ∧ ((-3 : ℚ) < 3) := by
  constructor
  · exact energy_window_positive_width.1 _ 4 (by norm_num)
  · refine energy_window_positive_width.2 [-5, -4, -3, -2, -1, 0, 1, 2, 3, 4, 5, 6]
      [1, 1, 1, 1, 1, 1, 1, 1, 1, 1, 1, 1] "metal" 0 0 0 0 (-3) 3 ?_
    have hup : upper_search_indices [-5, -4, -3, -2, -1, 0, 1, 2, 3, 4, 5, 6]
        5 3 6 "metal" 0 0 = [6, 7, 8, 9, 10] := by
      rw [upper_search_indices]
      norm_num [pyInt, List.getD]
      decide
    have hlo : lower_search_indices [-5, -4, -3, -2, -1, 0, 1, 2, 3, 4, 5, 6]
        5 3 6 "metal" 0 0 = [4, 3, 2, 1] := by
      rw [lower_search_indices]
      norm_num [pyInt, List.getD]
      decide
    have hub : find_smart_upper_boundary [-5, -4, -3, -2, -1, 0, 1, 2, 3, 4, 5, 6]
        [1, 1, 1, 1, 1, 1, 1, 1, 1, 1, 1, 1] 0 5 3 6 "metal" 0 0 = some 3 := by
      rw [find_smart_upper_boundary, hup]
      norm_num [pyInt, List.getD, upper_scan_step, pySlice, npMeanOpt, lt_nan_inf,
        pyGetQ]
      decide
    have hlb : find_smart_lower_boundary [-5, -4, -3, -2, -1, 0, 1, 2, 3, 4, 5, 6]
        [1, 1, 1, 1, 1, 1, 1, 1, 1, 1, 1, 1] 0 5 3 6 "metal" 0 0 = some (-3) := by
      rw [find_smart_lower_boundary, hlo]
      norm_num [pyInt, List.getD, lower_scan_step, pySlice, npMeanOpt, lt_nan_inf,
        pyGetQ]
      decide
    have hf : argmin_abs [-5, -4, -3, -2, -1, 0, 1, 2, 3, 4, 5, 6] 0 = 5 := by
      norm_num [argmin_abs, argmin_abs_aux, abs_of_nonneg, abs_of_nonpos]
    have hfc : ((argmin_abs [-5, -4, -3, -2, -1, 0, 1, 2, 3, 4, 5, 6] (0:ℚ) : ℕ) : ℤ) = 5 := by
      rw [hf]; rfl
    have h3 : pyInt ((3:ℚ) / (([-5, -4, -3, -2, -1, 0, 1, 2, 3, 4, 5, 6] : List ℚ).getD 1 0
        - ([-5, -4, -3, -2, -1, 0, 1, 2, 3, 4, 5, 6] : List ℚ).getD 0 0)) = 3 := by
      norm_num [pyInt, List.getD]
    have h6 : pyInt ((6:ℚ) / (([-5, -4, -3, -2, -1, 0, 1, 2, 3, 4, 5, 6] : List ℚ).getD 1 0
        - ([-5, -4, -3, -2, -1, 0, 1, 2, 3, 4, 5, 6] : List ℚ).getD 0 0)) = 6 := by
      norm_num [pyInt, List.getD]
    rw [adaptive_metal, hfc, h3, h6, hub, hlb]
    norm_num [combine_boundaries]

end FPLO
